import Mathlib

/-!
Verification of the Coro coroutine-engine API (`src/Coro/CoroAPI.h`).

The header under `src/` declares the exported function table (`struct
CoroAPI`), the save-mask bit constants, the public API macros and the
load-time handshake macro `I_CORO_API`.  The constants and the handshake
are embedded directly from the header.  The behaviour of the scheduling
operations (`transfer`, `save`, `ready`, `schedule`, `cede`,
`cede_notself`) is implemented in the Coro XS sources, which are not part
of `src/`; those operations are modelled from the spec, as noted on each
definition.
-/

set_option autoImplicit false

namespace Coro

/-- Save-mask bit for the argument list `@_` (`CORO_SAVE_DEFAV`, header line 16). -/
def CORO_SAVE_DEFAV : Int := 0x00000001

/-- Save-mask bit for the topic/default value `$_` (`CORO_SAVE_DEFSV`, header line 17). -/
def CORO_SAVE_DEFSV : Int := 0x00000002

/-- Save-mask bit for the last error `$@` (`CORO_SAVE_ERRSV`, header line 18). -/
def CORO_SAVE_ERRSV : Int := 0x00000004

/-- Save-mask bit for the record separator `$/` (`CORO_SAVE_IRSSV`, header line 19). -/
def CORO_SAVE_IRSSV : Int := 0x00000008

/-- Save-mask bit for the default filehandle (`CORO_SAVE_DEFFH`, header line 20). -/
def CORO_SAVE_DEFFH : Int := 0x00000010

/-- `CORO_SAVE_ALL`: bitwise OR of the five save bits (header lines 22-26). -/
def CORO_SAVE_ALL : Int :=
  Int.lor (Int.lor (Int.lor (Int.lor CORO_SAVE_DEFAV CORO_SAVE_DEFSV)
    CORO_SAVE_ERRSV) CORO_SAVE_IRSSV) CORO_SAVE_DEFFH

/-- `CORO_SAVE_DEF`: the default save-mask for a newly created coroutine
(header line 28). -/
def CORO_SAVE_DEF : Int := CORO_SAVE_ALL

/-- `CORO_API_VERSION` (header line 35). -/
def CORO_API_VERSION : Int := 4

/-- `CORO_API_REVISION` (header line 36). -/
def CORO_API_REVISION : Int := 0

/-- Modelled from the spec: a coroutine's Context Store — the execution
point captured at suspension plus the captured values of the five
dynamically-scoped global bindings ("register set, stack pointer" is
abstracted to a program counter; the implementation lives in Coro's XS
sources, not in `src/`). -/
structure CoroCtx where
  pc : Nat
  saved : Fin 5 → Int
  deriving DecidableEq

/-- Modelled from the spec: the engine's process-wide state — the
Current-Coroutine Register, the FIFO Ready Queue, the live values of the
five global-binding categories, the live execution point, each
coroutine's Context Store and each coroutine's save-mask.  Coroutine
handles are opaque `Nat` identifiers owned by the host. -/
structure FullState where
  current : Nat
  readyQ : List Nat
  live : Fin 5 → Int
  livePc : Nat
  ctx : Nat → CoroCtx
  mask : Nat → Int

/-- Whether binding category `i` is selected by save-mask `m`
(bit `i` of the mask, per the header's bit layout). -/
def sel (m : Int) (i : Fin 5) : Bool := m.testBit i.val

/-- Modelled from the spec: `transfer(prev, next)` (the Transfer
Primitive, implemented in Coro's XS sources, not in `src/`).  It saves
the caller's execution point `pc` and the global bindings selected by the
caller's save-mask into the caller's Context Store, restores `next`'s
execution point and the bindings selected by `next`'s save-mask from
`next`'s Context Store, and updates the Current-Coroutine Register to
`next`.  It does not touch the Ready Queue. -/
def transfer (st : FullState) (next : Nat) (pc : Nat) : FullState :=
  let prev := st.current
  let prevCtx : CoroCtx :=
    { pc := pc
      saved := fun i => if sel (st.mask prev) i then st.live i else (st.ctx prev).saved i }
  let ctx' : Nat → CoroCtx := fun c => if c = prev then prevCtx else st.ctx c
  { current := next
    readyQ := st.readyQ
    live := fun i => if sel (st.mask next) i then (ctx' next).saved i else st.live i
    livePc := (ctx' next).pc
    ctx := ctx'
    mask := st.mask }

/-- A sequence of transfers, each given as (target handle, suspension
point of the then-running coroutine). -/
def transferSeq (st : FullState) (steps : List (Nat × Nat)) : FullState :=
  steps.foldl (fun s p => transfer s p.1 p.2) st

/-- The query sentinel passed by `CORO_GET_SAVE` (header line 66:
`GCoroAPI->save ((coro), -1)`). -/
def querySentinel : Int := -1

/-- Modelled from the spec: `save(coro, new_save)` (Save/Restore Unit,
implemented in Coro's XS sources, not in `src/`).  Reads the coroutine's
current save-mask and, unless `new_save` is the query sentinel, installs
`new_save`; returns the prior mask in all cases. -/
def save (st : FullState) (coro : Nat) (new_save : Int) : Int × FullState :=
  (st.mask coro,
    if new_save = querySentinel then st
    else { st with mask := fun c => if c = coro then new_save else st.mask c })

/-- A valid save-mask: a combination of the five defined bits,
i.e. an integer in `[0, CORO_SAVE_ALL]`. -/
def validMask (m : Int) : Prop := 0 ≤ m ∧ m ≤ CORO_SAVE_ALL

/-- `CORO_GET_SAVE(coro)` (header line 66): a `save` call with the query
sentinel `-1`. -/
def CORO_GET_SAVE (st : FullState) (coro : Nat) : Int × FullState :=
  save st coro (-1)

/-- `CORO_SET_SAVE(coro, save)` (header line 67). -/
def CORO_SET_SAVE (st : FullState) (coro : Nat) (new_save : Int) : Int × FullState :=
  save st coro new_save

/-- Modelled from the spec: `ready(coro)` (implemented in Coro's XS
sources, not in `src/`).  If the coroutine is not already in the Ready
Queue and is not the currently-running coroutine, append it and return
true; otherwise a no-op returning false. -/
def ready (st : FullState) (coro : Nat) : FullState × Bool :=
  if coro ∈ st.readyQ ∨ coro = st.current then (st, false)
  else ({ st with readyQ := st.readyQ ++ [coro] }, true)

/-- Modelled from the spec: `is_ready(coro)` — pure membership test of
the Ready Queue. -/
def is_ready (st : FullState) (coro : Nat) : Bool := st.readyQ.contains coro

/-- Modelled from the spec: `nready` — the count of the Ready Queue. -/
def nready (st : FullState) : Nat := st.readyQ.length

/-- Modelled from the spec: `schedule()` (implemented in Coro's XS
sources, not in `src/`).  If the Ready Queue is non-empty, dequeue its
head and `transfer` the currently-running coroutine to it; if empty, a
no-op.  `pc` is the caller's suspension point, consumed by `transfer`. -/
def schedule (st : FullState) (pc : Nat) : FullState :=
  match st.readyQ with
  | [] => st
  | next :: rest => transfer { st with readyQ := rest } next pc

/-- Modelled from the spec: `cede()` (implemented in Coro's XS sources,
not in `src/`).  Enqueue the current coroutine at the tail, then
`schedule()`; returns whether an actual switch occurred (false iff the
queue was empty at the call). -/
def cede (st : FullState) (pc : Nat) : FullState × Bool :=
  (schedule { st with readyQ := st.readyQ ++ [st.current] } pc, !st.readyQ.isEmpty)

/-- Modelled from the spec: `cede_notself()` (implemented in Coro's XS
sources, not in `src/`).  If the Ready Queue is empty, return
immediately without enqueuing and without switching; otherwise behave
like `cede`. -/
def cede_notself (st : FullState) (pc : Nat) : FullState × Bool :=
  if st.readyQ.isEmpty then (st, false) else cede st pc

/-- The exported function table (`struct CoroAPI`, header lines 33-53).
Only the version field carries load-time data; the function-pointer
fields are modelled by the top-level operations above and by `runOp`. -/
structure CoroAPI where
  ver : Int
  deriving DecidableEq

/-- `I_CORO_API(YourName)` (header lines 69-78): resolve the table by
its well-known name `"Coro::API"` (here: the `Option` argument — `none`
when `perl_get_sv` found nothing), failing fatally if absent; then fail
fatally iff the table's version differs from `CORO_API_VERSION`,
naming the actual version, the expected version and the consumer. -/
def I_CORO_API (sv : Option CoroAPI) (YourName : String) : Except String CoroAPI :=
  match sv with
  | none => .error "Coro::API not found"
  | some api =>
    if api.ver ≠ CORO_API_VERSION then
      .error ("Coro::API version mismatch (" ++ toString api.ver ++ " != "
        ++ toString CORO_API_VERSION ++ ") -- please recompile " ++ YourName)
    else
      .ok api

/-- Return value of an engine operation. -/
inductive Ret where
  | unit : Ret
  | bool : Bool → Ret
  | int : Int → Ret
  | handle : Nat → Ret

/-- One invocation of an exported engine operation (the public API
macros of header lines 58-67), with its arguments. -/
inductive Op where
  | transfer (next : Nat) (pc : Nat)
  | save (coro : Nat) (new_save : Int)
  | schedule (pc : Nat)
  | cede (pc : Nat)
  | cede_notself (pc : Nat)
  | ready (coro : Nat)
  | is_ready (coro : Nat)
  | nready
  | current

/-- Run one exported engine operation.  The error channel exists only to
compare with the handshake: no operation ever uses it (none performs a
version check or a hard stop). -/
def runOp (op : Op) (st : FullState) : Except String (FullState × Ret) :=
  match op with
  | .transfer next pc => .ok (transfer st next pc, .unit)
  | .save coro m => .ok ((save st coro m).2, .int (save st coro m).1)
  | .schedule pc => .ok (schedule st pc, .unit)
  | .cede pc => .ok ((cede st pc).1, .bool (cede st pc).2)
  | .cede_notself pc => .ok ((cede_notself st pc).1, .bool (cede_notself st pc).2)
  | .ready coro => .ok ((ready st coro).1, .bool (ready st coro).2)
  | .is_ready coro => .ok (st, .bool (is_ready st coro))
  | .nready => .ok (st, .int (nready st))
  | .current => .ok (st, .handle st.current)

/-- A concrete engine state used for witnesses and counterexamples:
coroutine 0 running, empty Ready Queue, default masks. -/
def initState : FullState :=
  { current := 0
    readyQ := []
    live := fun _ => 0
    livePc := 0
    ctx := fun _ => { pc := 0, saved := fun _ => 0 }
    mask := fun _ => CORO_SAVE_DEF }

/-- A concrete engine state with Ready Queue [1, 2, 3], used as a
witness input. -/
def fifoState : FullState := { initState with readyQ := [1, 2, 3] }

/-- The queue/register invariant: no handle appears twice in the Ready
Queue and the currently-running coroutine is never a member.  ("Exactly
one coroutine equals `current`" is structural: the Current-Coroutine
Register holds exactly one handle.) -/
def Inv (st : FullState) : Prop := st.readyQ.Nodup ∧ st.current ∉ st.readyQ

/-- Reachability by arbitrary sequences of the five scheduling
operations, `transfer` included with an arbitrary target — the operation
set named by the claim. -/
inductive Reach : FullState → FullState → Prop where
  | refl (s : FullState) : Reach s s
  | step_transfer (s t : FullState) (next pc : Nat) :
      Reach s t → Reach s (transfer t next pc)
  | step_ready (s t : FullState) (c : Nat) :
      Reach s t → Reach s (ready t c).1
  | step_schedule (s t : FullState) (pc : Nat) :
      Reach s t → Reach s (schedule t pc)
  | step_cede (s t : FullState) (pc : Nat) :
      Reach s t → Reach s (cede t pc).1
  | step_cede_notself (s t : FullState) (pc : Nat) :
      Reach s t → Reach s (cede_notself t pc).1

/-- Reachability as in `Reach`, except that a raw `transfer` is only
taken to a target that is not currently a member of the Ready Queue (the
usage discipline the scheduler itself obeys). -/
inductive ReachSafe : FullState → FullState → Prop where
  | refl (s : FullState) : ReachSafe s s
  | step_transfer (s t : FullState) (next pc : Nat) :
      next ∉ t.readyQ → ReachSafe s t → ReachSafe s (transfer t next pc)
  | step_ready (s t : FullState) (c : Nat) :
      ReachSafe s t → ReachSafe s (ready t c).1
  | step_schedule (s t : FullState) (pc : Nat) :
      ReachSafe s t → ReachSafe s (schedule t pc)
  | step_cede (s t : FullState) (pc : Nat) :
      ReachSafe s t → ReachSafe s (cede t pc).1
  | step_cede_notself (s t : FullState) (pc : Nat) :
      ReachSafe s t → ReachSafe s (cede_notself t pc).1

/-! ## Basic unfolding lemmas -/

theorem transfer_current (s : FullState) (next pc : Nat) :
    (transfer s next pc).current = next := rfl

theorem transfer_readyQ (s : FullState) (next pc : Nat) :
    (transfer s next pc).readyQ = s.readyQ := rfl

theorem transfer_mask (s : FullState) (next pc : Nat) :
    (transfer s next pc).mask = s.mask := rfl

theorem schedule_nil (st : FullState) (pc : Nat) (h : st.readyQ = []) :
    schedule st pc = st := by
  simp only [schedule, h]

theorem schedule_cons (st : FullState) (pc next : Nat) (rest : List Nat)
    (h : st.readyQ = next :: rest) :
    schedule st pc = transfer { st with readyQ := rest } next pc := by
  simp only [schedule, h]

theorem transfer_ctx_other (s : FullState) (next pc c : Nat) (h : c ≠ s.current) :
    (transfer s next pc).ctx c = s.ctx c := by
  simp only [transfer]
  rw [if_neg h]

theorem transfer_ctx_self (s : FullState) (next pc : Nat) :
    (transfer s next pc).ctx s.current =
      { pc := pc
        saved := fun i => if sel (s.mask s.current) i then s.live i
          else (s.ctx s.current).saved i } := by
  simp only [transfer]
  rw [if_pos trivial]

theorem transfer_livePc (s : FullState) (next pc : Nat) (h : next ≠ s.current) :
    (transfer s next pc).livePc = (s.ctx next).pc := by
  simp only [transfer]
  rw [if_neg h]

theorem transfer_live (s : FullState) (next pc : Nat) (h : next ≠ s.current) (i : Fin 5) :
    (transfer s next pc).live i =
      if sel (s.mask next) i then (s.ctx next).saved i else s.live i := by
  simp only [transfer]
  rw [if_neg h]

theorem transferSeq_nil (st : FullState) : transferSeq st [] = st := rfl

theorem transferSeq_cons (st : FullState) (p : Nat × Nat) (steps : List (Nat × Nat)) :
    transferSeq st (p :: steps) = transferSeq (transfer st p.1 p.2) steps := rfl

/-- Across a sequence of transfers none of which targets `A`, starting
while `A` is not running: `A`'s Context Store, every save-mask, and the
fact that `A` is not running are all preserved. -/
theorem transferSeq_preserve (A : Nat) (steps : List (Nat × Nat)) :
    ∀ s : FullState, s.current ≠ A → (∀ p ∈ steps, p.1 ≠ A) →
      (transferSeq s steps).ctx A = s.ctx A
      ∧ (transferSeq s steps).mask = s.mask
      ∧ (transferSeq s steps).current ≠ A := by
  induction steps with
  | nil => exact fun s h _ => ⟨rfl, rfl, h⟩
  | cons p rest ih =>
    intro s h hall
    have hp : p.1 ≠ A := hall p (List.mem_cons_self p rest)
    have h1 : (transfer s p.1 p.2).current ≠ A := by
      rw [transfer_current]
      exact hp
    obtain ⟨e1, e2, e3⟩ := ih (transfer s p.1 p.2) h1
      (fun q hq => hall q (List.mem_cons_of_mem p hq))
    rw [transferSeq_cons]
    refine ⟨?_, ?_, e3⟩
    · rw [e1]
      exact transfer_ctx_other s p.1 p.2 A (Ne.symm h)
    · rw [e2, transfer_mask]

/-- `ready` preserves the queue/register invariant. -/
theorem ready_inv (st : FullState) (c : Nat) (h : Inv st) : Inv (ready st c).1 := by
  unfold ready
  split_ifs with hc
  · exact h
  · push_neg at hc
    refine ⟨?_, ?_⟩
    · refine List.Nodup.append h.1 (List.nodup_singleton c) ?_
      intro a ha hb
      simp only [List.mem_singleton] at hb
      exact hc.1 (hb ▸ ha)
    · intro hmem
      rcases List.mem_append.mp hmem with hq | hs
      · exact h.2 hq
      · simp only [List.mem_singleton] at hs
        exact hc.2 hs.symm

/-- `schedule` establishes the invariant from queue distinctness alone
(a dequeued head is no longer in the queue). -/
theorem schedule_inv (st : FullState) (pc : Nat) (h : st.readyQ.Nodup) :
    Inv (schedule st pc) := by
  cases hq : st.readyQ with
  | nil =>
    rw [schedule_nil st pc hq]
    refine ⟨h, ?_⟩
    rw [hq]
    exact List.not_mem_nil _
  | cons a l =>
    rw [schedule_cons st pc a l hq]
    rw [hq] at h
    refine ⟨?_, ?_⟩
    · rw [transfer_readyQ]
      exact h.of_cons
    · rw [transfer_current, transfer_readyQ]
      exact (List.nodup_cons.mp h).1

/-- `cede` preserves the queue/register invariant. -/
theorem cede_inv (st : FullState) (pc : Nat) (h : Inv st) : Inv (cede st pc).1 := by
  have hn : (st.readyQ ++ [st.current]).Nodup := by
    refine List.Nodup.append h.1 (List.nodup_singleton _) ?_
    intro a ha hb
    simp only [List.mem_singleton] at hb
    exact h.2 (hb ▸ ha)
  exact schedule_inv { st with readyQ := st.readyQ ++ [st.current] } pc hn

/-- `cede_notself` preserves the queue/register invariant. -/
theorem cede_notself_inv (st : FullState) (pc : Nat) (h : Inv st) :
    Inv (cede_notself st pc).1 := by
  unfold cede_notself
  split_ifs with hc
  · exact h
  · exact cede_inv st pc h

/-- `transfer` to a target outside the Ready Queue preserves the
queue/register invariant. -/
theorem transfer_inv (st : FullState) (next pc : Nat) (hn : next ∉ st.readyQ)
    (h : Inv st) : Inv (transfer st next pc) := by
  refine ⟨?_, ?_⟩
  · rw [transfer_readyQ]
    exact h.1
  · rw [transfer_current, transfer_readyQ]
    exact hn

/-! ## Claims -/

/-- C2: the save-mask is a bitset of exactly five pairwise-disjoint
single-bit categories (0x01, 0x02, 0x04, 0x08, 0x10); `CORO_SAVE_ALL`
is their bitwise OR and equals 0x1F; `CORO_SAVE_DEF` equals
`CORO_SAVE_ALL`. -/
theorem c2_save_mask_layout :
    (CORO_SAVE_DEFAV = 0x01 ∧ CORO_SAVE_DEFSV = 0x02 ∧ CORO_SAVE_ERRSV = 0x04
      ∧ CORO_SAVE_IRSSV = 0x08 ∧ CORO_SAVE_DEFFH = 0x10)
    ∧ (Int.land CORO_SAVE_DEFAV CORO_SAVE_DEFSV = 0
      ∧ Int.land CORO_SAVE_DEFAV CORO_SAVE_ERRSV = 0
      ∧ Int.land CORO_SAVE_DEFAV CORO_SAVE_IRSSV = 0
      ∧ Int.land CORO_SAVE_DEFAV CORO_SAVE_DEFFH = 0
      ∧ Int.land CORO_SAVE_DEFSV CORO_SAVE_ERRSV = 0
      ∧ Int.land CORO_SAVE_DEFSV CORO_SAVE_IRSSV = 0
      ∧ Int.land CORO_SAVE_DEFSV CORO_SAVE_DEFFH = 0
      ∧ Int.land CORO_SAVE_ERRSV CORO_SAVE_IRSSV = 0
      ∧ Int.land CORO_SAVE_ERRSV CORO_SAVE_DEFFH = 0
      ∧ Int.land CORO_SAVE_IRSSV CORO_SAVE_DEFFH = 0)
    ∧ CORO_SAVE_ALL = Int.lor (Int.lor (Int.lor (Int.lor CORO_SAVE_DEFAV
        CORO_SAVE_DEFSV) CORO_SAVE_ERRSV) CORO_SAVE_IRSSV) CORO_SAVE_DEFFH
    ∧ CORO_SAVE_ALL = 0x1F
    ∧ CORO_SAVE_DEF = CORO_SAVE_ALL := by
  decide

/-- C1: the load-time handshake succeeds iff the table's version field
equals `CORO_API_VERSION = 4`; on mismatch it fails fatally with a
message naming the actual version, the expected version and the
consumer's identity; and no exported engine operation performs a version
check or a hard stop (every `runOp` returns `.ok`). -/
theorem c1_version_handshake :
    CORO_API_VERSION = 4
    ∧ (∀ (api : CoroAPI) (name : String),
        I_CORO_API (some api) name = .ok api ↔ api.ver = CORO_API_VERSION)
    ∧ (∀ (api : CoroAPI) (name : String), api.ver ≠ CORO_API_VERSION →
        I_CORO_API (some api) name =
          .error ("Coro::API version mismatch (" ++ toString api.ver ++ " != "
            ++ toString CORO_API_VERSION ++ ") -- please recompile " ++ name))
    ∧ (∀ (op : Op) (st : FullState), ∃ r, runOp op st = .ok r) := by
  refine ⟨rfl, ?_, ?_, ?_⟩
  · intro api name
    by_cases h : api.ver = CORO_API_VERSION
    · simp [I_CORO_API, h]
    · simp [I_CORO_API, h]
  · intro api name h
    simp [I_CORO_API, h]
  · intro op st
    cases op <;> exact ⟨_, rfl⟩

/-- Witness for C1 at a concrete mismatching table (version 5) and a
concrete consumer name. -/
theorem c1_version_handshake_witness :
    (5 : Int) ≠ CORO_API_VERSION ∧
    I_CORO_API (some ⟨5⟩) "Event" =
      .error ("Coro::API version mismatch (" ++ toString (5 : Int) ++ " != "
        ++ toString CORO_API_VERSION ++ ") -- please recompile " ++ "Event") :=
  ⟨by decide, c1_version_handshake.2.2.1 ⟨5⟩ "Event" (by decide)⟩

/-- C10: if the table cannot be resolved by its well-known name,
`I_CORO_API` aborts fatally with "Coro::API not found" (no version is
even available to compare); the query sentinel used by `CORO_GET_SAVE`
is `-1`, distinct from every valid mask, and a query never installs
anything. -/
theorem c10_notfound_and_sentinel :
    (∀ name, I_CORO_API none name = .error "Coro::API not found")
    ∧ querySentinel = -1
    ∧ (∀ st c, CORO_GET_SAVE st c = save st c querySentinel)
    ∧ (∀ m, validMask m → m ≠ querySentinel)
    ∧ (∀ st c, (save st c querySentinel).2 = st) := by
  refine ⟨fun name => rfl, rfl, fun st c => rfl, ?_, fun st c => ?_⟩
  · intro m hm h
    rw [h] at hm
    exact absurd hm.1 (by decide)
  · simp [save]

/-- Witness for C10: the all-bits mask is a valid mask and is distinct
from the query sentinel. -/
theorem c10_notfound_and_sentinel_witness :
    validMask CORO_SAVE_ALL ∧ CORO_SAVE_ALL ≠ querySentinel :=
  ⟨⟨by decide, by decide⟩,
    c10_notfound_and_sentinel.2.2.2.1 CORO_SAVE_ALL ⟨by decide, by decide⟩⟩

/-- C3: `save` returns the mask in effect before the call in all cases;
for a valid (non-sentinel) mask it installs the new mask; the query
sentinel is a pure read; hence `save(C, M)` then `save(C, QUERY)`
returns `M`. -/
theorem c3_save_roundtrip :
    (∀ (st : FullState) (c : Nat) (m : Int), (save st c m).1 = st.mask c)
    ∧ (∀ (st : FullState) (c : Nat) (m : Int), validMask m →
        (save st c m).2.mask c = m)
    ∧ (∀ (st : FullState) (c : Nat), (save st c querySentinel).2 = st)
    ∧ (∀ (st : FullState) (c : Nat) (m : Int), validMask m →
        (save (save st c m).2 c querySentinel).1 = m) := by
  have hvalid : ∀ m : Int, validMask m → m ≠ querySentinel := by
    intro m hm h
    rw [h] at hm
    exact absurd hm.1 (by decide)
  refine ⟨fun st c m => rfl, ?_, fun st c => by simp [save], ?_⟩
  · intro st c m hm
    simp [save, hvalid m hm]
  · intro st c m hm
    simp [save, hvalid m hm]

/-- Witness for C3: installing the valid mask 6 on coroutine 1 and then
querying returns 6. -/
theorem c3_save_roundtrip_witness :
    (save (save initState 1 6).2 1 querySentinel).1 = 6 :=
  c3_save_roundtrip.2.2.2 initState 1 6 ⟨by decide, by decide⟩

/-- C4 counterexample: as stated, the claim asserts for every coroutine
X that two successive `ready(X)` calls change `nready` by exactly 1 —
false when X is the currently-running coroutine (or already a member):
both calls are no-ops and `nready` is unchanged. -/
theorem c4_counterexample :
    ¬ (∀ (st : FullState) (X : Nat),
        nready (ready (ready st X).1 X).1 = nready st + 1
        ∧ (ready (ready st X).1 X).2 = false) := by
  intro h
  have h0 := (h initState 0).1
  simp [ready, initState, nready] at h0

/-- C4 (amended): `ready(X)` appends X and returns true iff X is
neither a Ready-Queue member nor the current coroutine, and otherwise is
a no-op returning false; hence, provided X is neither a member nor
current at the first call, two successive `ready(X)` calls change
`nready` by exactly 1 and the second call returns false. -/
theorem c4_ready_idempotent :
    (∀ (st : FullState) (X : Nat),
        ((ready st X).2 = true ↔ X ∉ st.readyQ ∧ X ≠ st.current))
    ∧ (∀ (st : FullState) (X : Nat),
        (ready st X).2 = false → (ready st X).1 = st)
    ∧ (∀ (st : FullState) (X : Nat),
        (ready st X).2 = true → (ready st X).1.readyQ = st.readyQ ++ [X])
    ∧ (∀ (st : FullState) (X : Nat), X ∉ st.readyQ → X ≠ st.current →
        nready (ready (ready st X).1 X).1 = nready st + 1
        ∧ (ready (ready st X).1 X).2 = false) := by
  refine ⟨?_, ?_, ?_, ?_⟩
  · intro st X
    by_cases hc : X ∈ st.readyQ ∨ X = st.current
    · have e : ready st X = (st, false) := by
        unfold ready
        rw [if_pos hc]
      rw [e]
      simp only [Bool.false_eq_true, false_iff]
      tauto
    · have e : ready st X = ({ st with readyQ := st.readyQ ++ [X] }, true) := by
        unfold ready
        rw [if_neg hc]
      rw [e]
      push_neg at hc
      simpa using hc
  · intro st X h
    by_cases hc : X ∈ st.readyQ ∨ X = st.current
    · have e : ready st X = (st, false) := by
        unfold ready
        rw [if_pos hc]
      rw [e]
    · have e : ready st X = ({ st with readyQ := st.readyQ ++ [X] }, true) := by
        unfold ready
        rw [if_neg hc]
      rw [e] at h
      simp at h
  · intro st X h
    by_cases hc : X ∈ st.readyQ ∨ X = st.current
    · have e : ready st X = (st, false) := by
        unfold ready
        rw [if_pos hc]
      rw [e] at h
      simp at h
    · have e : ready st X = ({ st with readyQ := st.readyQ ++ [X] }, true) := by
        unfold ready
        rw [if_neg hc]
      rw [e]
  · intro st X h1 h2
    have hc1 : ¬ (X ∈ st.readyQ ∨ X = st.current) := by
      push_neg
      exact ⟨h1, h2⟩
    have e1 : ready st X = ({ st with readyQ := st.readyQ ++ [X] }, true) := by
      unfold ready
      rw [if_neg hc1]
    have hc2 : X ∈ st.readyQ ++ [X] ∨ X = ({ st with readyQ := st.readyQ ++ [X] } :
        FullState).current := Or.inl (by simp)
    have e2 : ready { st with readyQ := st.readyQ ++ [X] } X =
        ({ st with readyQ := st.readyQ ++ [X] }, false) := by
      unfold ready
      rw [if_pos hc2]
    rw [e1]
    refine ⟨?_, ?_⟩
    · show nready (ready { st with readyQ := st.readyQ ++ [X] } X).1 = nready st + 1
      rw [e2]
      simp [nready]
    · show (ready { st with readyQ := st.readyQ ++ [X] } X).2 = false
      rw [e2]

/-- Witness for C4 (amended): a fresh coroutine 1 readied twice from the
initial state. -/
theorem c4_ready_idempotent_witness :
    nready (ready (ready initState 1).1 1).1 = nready initState + 1
    ∧ (ready (ready initState 1).1 1).2 = false :=
  c4_ready_idempotent.2.2.2 initState 1 (by simp [initState]) (by simp [initState])

/-- C6: `schedule` with a non-empty queue dequeues exactly the head and
transfers the current coroutine to it; with an empty queue it is a
no-op; coroutines enqueued in order [X, Y, Z] are dequeued X then Y
then Z. -/
theorem c6_schedule_fifo :
    (∀ (st : FullState) (pc : Nat), st.readyQ = [] → schedule st pc = st)
    ∧ (∀ (st : FullState) (pc next : Nat) (rest : List Nat),
        st.readyQ = next :: rest →
        schedule st pc = transfer { st with readyQ := rest } next pc
        ∧ (schedule st pc).current = next ∧ (schedule st pc).readyQ = rest)
    ∧ (∀ (st : FullState) (pc1 pc2 pc3 X Y Z : Nat), st.readyQ = [X, Y, Z] →
        (schedule st pc1).current = X
        ∧ (schedule (schedule st pc1) pc2).current = Y
        ∧ (schedule (schedule (schedule st pc1) pc2) pc3).current = Z
        ∧ (schedule (schedule (schedule st pc1) pc2) pc3).readyQ = []) := by
  refine ⟨schedule_nil, ?_, ?_⟩
  · intro st pc next rest h
    have e := schedule_cons st pc next rest h
    exact ⟨e, by rw [e, transfer_current], by rw [e, transfer_readyQ]⟩
  · intro st pc1 pc2 pc3 X Y Z h
    have e1 := schedule_cons st pc1 X [Y, Z] h
    have h1 : (schedule st pc1).readyQ = [Y, Z] := by rw [e1, transfer_readyQ]
    have e2 := schedule_cons _ pc2 Y [Z] h1
    have h2 : (schedule (schedule st pc1) pc2).readyQ = [Z] := by
      rw [e2, transfer_readyQ]
    have e3 := schedule_cons _ pc3 Z [] h2
    exact ⟨by rw [e1, transfer_current], by rw [e2, transfer_current],
      by rw [e3, transfer_current], by rw [e3, transfer_readyQ]⟩

/-- Witness for C6: from a queue [1, 2, 3], three `schedule` calls run
coroutines 1, 2, 3 in order. -/
theorem c6_schedule_fifo_witness :
    (schedule fifoState 5).current = 1
    ∧ (schedule (schedule fifoState 5) 6).current = 2
    ∧ (schedule (schedule (schedule fifoState 5) 6) 7).current = 3
    ∧ (schedule (schedule (schedule fifoState 5) 6) 7).readyQ = [] :=
  c6_schedule_fifo.2.2 fifoState 5 6 7 1 2 3 rfl

/-- C7: `cede()` when `nready == 0` returns false and leaves `current`
unchanged — the caller simply keeps running. -/
theorem c7_cede_empty (st : FullState) (pc : Nat) (h : nready st = 0) :
    (cede st pc).2 = false ∧ (cede st pc).1.current = st.current := by
  have hq : st.readyQ = [] := List.length_eq_zero.mp h
  constructor
  · simp [cede, hq]
  · have e := schedule_cons { st with readyQ := st.readyQ ++ [st.current] } pc
      st.current [] (by rw [hq]; rfl)
    show (schedule { st with readyQ := st.readyQ ++ [st.current] } pc).current
      = st.current
    rw [e, transfer_current]

/-- Witness for C7: ceding from the initial state (empty queue). -/
theorem c7_cede_empty_witness :
    (cede initState 4).2 = false ∧ (cede initState 4).1.current = initState.current :=
  c7_cede_empty initState 4 rfl

/-- C8: `cede_notself()` with an empty Ready Queue returns immediately
(state unchanged, no enqueue, returns false); with a non-empty queue it
behaves exactly like `cede()`. -/
theorem c8_cede_notself (st : FullState) (pc : Nat) :
    (nready st = 0 → cede_notself st pc = (st, false))
    ∧ (st.readyQ ≠ [] → cede_notself st pc = cede st pc) := by
  constructor
  · intro h
    have hq : st.readyQ = [] := List.length_eq_zero.mp h
    simp [cede_notself, hq]
  · intro h
    have hne : st.readyQ.isEmpty = false := by
      cases hq : st.readyQ with
      | nil => exact absurd hq h
      | cons a l => rfl
    simp [cede_notself, hne]

/-- Witness for C8: from the initial state (empty queue) and from a
state whose queue is [1, 2, 3]. -/
theorem c8_cede_notself_witness :
    cede_notself initState 3 = (initState, false)
    ∧ cede_notself fifoState 3 = cede fifoState 3 :=
  ⟨(c8_cede_notself initState 3).1 rfl,
    (c8_cede_notself fifoState 3).2 (by decide)⟩

/-- C5 counterexample: under the operation set the claim names —
`transfer` included, with an arbitrary target — the invariant is not
preserved: from the invariant-satisfying initial state, `ready(1)`
followed by a raw `transfer` to 1 leaves coroutine 1 both running and a
member of the Ready Queue. -/
theorem c5_counterexample :
    ¬ (∀ s0 s : FullState, Inv s0 → Reach s0 s → Inv s) := by
  intro h
  have hre : Reach initState (transfer (ready initState 1).1 1 0) :=
    Reach.step_transfer _ _ 1 0 (Reach.step_ready _ _ 1 (Reach.refl _))
  obtain ⟨-, h2⟩ := h initState _ ⟨List.nodup_nil, List.not_mem_nil _⟩ hre
  have hc : (transfer (ready initState 1).1 1 0).current = 1 :=
    transfer_current _ _ _
  have hq : (transfer (ready initState 1).1 1 0).readyQ = [1] := by decide
  rw [hc, hq] at h2
  exact h2 (List.mem_singleton.mpr rfl)

/-- C5 (amended): in every state reachable from an invariant-satisfying
state by ready/schedule/cede/cede_notself — and by transfers whose
target is not currently a Ready-Queue member — exactly one coroutine
equals `current` (structural: the register is a single slot), no handle
appears twice in the Ready Queue, and the running coroutine is never a
member of the Ready Queue. -/
theorem c5_invariant (s0 s : FullState) (h0 : Inv s0) (h : ReachSafe s0 s) :
    Inv s := by
  induction h with
  | refl => exact h0
  | step_transfer t next pc hn _ ih => exact transfer_inv t next pc hn ih
  | step_ready t c _ ih => exact ready_inv t c ih
  | step_schedule t pc _ ih => exact schedule_inv t pc ih.1
  | step_cede t pc _ ih => exact cede_inv t pc ih
  | step_cede_notself t pc _ ih => exact cede_notself_inv t pc ih

/-- Witness for C5 (amended): the initial state satisfies the
invariant, and so does the state after readying coroutine 1. -/
theorem c5_invariant_witness : Inv (ready initState 1).1 :=
  c5_invariant initState (ready initState 1).1
    ⟨List.nodup_nil, List.not_mem_nil _⟩
    (ReachSafe.step_ready _ _ 1 (ReachSafe.refl _))

/-- C9: after `transfer(A, B)` suspends A at point `pcA`, any sequence
of further transfers that never targets A, ended by a transfer back
into A, restores A's execution point to `pcA` and every global binding
selected by A's save-mask to its value at the moment A suspended; and
`transfer` never consults or changes the Ready Queue. -/
theorem c9_transfer_symmetry (st : FullState) (A B pcA pcB : Nat)
    (steps : List (Nat × Nat)) (hA : st.current = A) (hB : B ≠ A)
    (hsteps : ∀ p ∈ steps, p.1 ≠ A) :
    (transfer (transferSeq (transfer st B pcA) steps) A pcB).livePc = pcA
    ∧ (∀ i : Fin 5, sel (st.mask A) i = true →
        (transfer (transferSeq (transfer st B pcA) steps) A pcB).live i = st.live i)
    ∧ (∀ (s : FullState) (next pc : Nat), (transfer s next pc).readyQ = s.readyQ) := by
  have h1 : (transfer st B pcA).current ≠ A := by
    rw [transfer_current]
    exact hB
  obtain ⟨e1, e2, e3⟩ := transferSeq_preserve A steps (transfer st B pcA) h1 hsteps
  have hctxA : (transfer st B pcA).ctx A =
      { pc := pcA
        saved := fun i => if sel (st.mask A) i then st.live i
          else (st.ctx A).saved i } := by
    rw [← hA]
    exact transfer_ctx_self st B pcA
  have hctx2 : (transferSeq (transfer st B pcA) steps).ctx A =
      { pc := pcA
        saved := fun i => if sel (st.mask A) i then st.live i
          else (st.ctx A).saved i } := by
    rw [e1, hctxA]
  have hmask2 : (transferSeq (transfer st B pcA) steps).mask = st.mask := by
    rw [e2, transfer_mask]
  refine ⟨?_, ?_, fun s next pc => transfer_readyQ s next pc⟩
  · rw [transfer_livePc _ A pcB (Ne.symm e3), hctx2]
  · intro i hi
    rw [transfer_live _ A pcB (Ne.symm e3) i, hmask2, hctx2]
    simp [hi]

/-- Witness for C9: coroutine 0 suspends at point 7, coroutine 1 runs,
then a transfer back into 0. -/
theorem c9_transfer_symmetry_witness :
    (transfer (transferSeq (transfer initState 1 7) []) 0 9).livePc = 7
    ∧ (∀ i : Fin 5, sel (initState.mask 0) i = true →
        (transfer (transferSeq (transfer initState 1 7) []) 0 9).live i
          = initState.live i)
    ∧ (∀ (s : FullState) (next pc : Nat), (transfer s next pc).readyQ = s.readyQ) :=
  c9_transfer_symmetry initState 0 1 7 9 [] rfl (by decide) (by simp)

end Coro
